import Mathlib

set_option maxRecDepth 100000

/- Verification development for the calmap repository (calmap/__init__.py).

   The code lays Pandas daily time series out into a calendar heatmap.  The
   development below shallowly embeds the date arithmetic used by yearplot
   and calendarplot: the proleptic Gregorian calendar as used by Python
   datetime (ordinal day counts, weekday with Monday = 0, ISO 8601 week
   numbers), the week renumbering at year boundaries (lines 196 to 202 of
   the source), the pivot into (weekday row, week column) cells, the
   resampling step, and the layout/limit/legend computations of the two
   renderers.  Dates inside a year are represented by their day-of-year
   ordinal (1 to 365/366). -/

/- Gregorian leap year test, as in calendar.isleap / datetime. -/
def isLeap (y : Nat) : Bool :=
  (y % 4 == 0 && y % 100 != 0) || (y % 400 == 0)

/- Number of days in year y. -/
def daysInYear (y : Nat) : Nat :=
  if isLeap y then 366 else 365

/- Number of days strictly before January 1 of year y, counting from
   January 1 of year 1 (so the proleptic-Gregorian ordinal of January 1 of
   year y is daysBeforeYear y + 1, exactly Python datetime.toordinal). -/
def daysBeforeYear (y : Nat) : Nat :=
  365 * (y - 1) + (y - 1) / 4 + (y - 1) / 400 - (y - 1) / 100

/- Python date.weekday() for the date with day-of-year doy in year y:
   Monday = 0 ... Sunday = 6.  January 1 of year 1 is a Monday. -/
def pyWeekday (y doy : Nat) : Nat :=
  (daysBeforeYear y + doy - 1) % 7

/- Weekday of January 1 of year y (the variable named start in the month
   border code, line 259 of the source). -/
def jan1wd (y : Nat) : Nat :=
  daysBeforeYear y % 7

/- Ordinal of the Monday starting ISO week 1 of ISO year y; transcribed
   from CPython datetime._isoweek1monday. -/
def isoweek1monday (y : Nat) : Nat :=
  if 3 < daysBeforeYear y % 7 then
    daysBeforeYear y + 1 + 7 - daysBeforeYear y % 7
  else
    daysBeforeYear y + 1 - daysBeforeYear y % 7

/- ISO 8601 week number of the date with day-of-year doy in year y;
   transcribed from CPython date.isocalendar (the week component).  This is
   what pandas DatetimeIndex.isocalendar().week computes (line 192). -/
def isocalWeek (y doy : Nat) : Nat :=
  if daysBeforeYear y + doy < isoweek1monday y then
    (daysBeforeYear y + doy - isoweek1monday (y - 1)) / 7 + 1
  else if 52 ≤ (daysBeforeYear y + doy - isoweek1monday y) / 7 ∧
          isoweek1monday (y + 1) ≤ daysBeforeYear y + doy then
    1
  else
    (daysBeforeYear y + doy - isoweek1monday y) / 7 + 1

/- Calendar month (1..12) of the date with day-of-year doy (doy ≥ 1),
   via the cumulative month lengths of the Gregorian calendar. -/
def monthOfDoy (leap : Bool) (doy : Nat) : Nat :=
  if doy ≤ 31 then 1
  else if doy ≤ 59 + (if leap then 1 else 0) then 2
  else if doy ≤ 90 + (if leap then 1 else 0) then 3
  else if doy ≤ 120 + (if leap then 1 else 0) then 4
  else if doy ≤ 151 + (if leap then 1 else 0) then 5
  else if doy ≤ 181 + (if leap then 1 else 0) then 6
  else if doy ≤ 212 + (if leap then 1 else 0) then 7
  else if doy ≤ 243 + (if leap then 1 else 0) then 8
  else if doy ≤ 273 + (if leap then 1 else 0) then 9
  else if doy ≤ 304 + (if leap then 1 else 0) then 10
  else if doy ≤ 334 + (if leap then 1 else 0) then 11
  else 12

/- Days before month m (1..13) in a year with the given leap flag, so the
   first day of month m has day-of-year daysBeforeMonth leap m + 1 and the
   last day of month m has day-of-year daysBeforeMonth leap (m + 1). -/
def daysBeforeMonth (leap : Bool) (m : Nat) : Nat :=
  match m with
  | 1 => 0
  | 2 => 31
  | 3 => 59 + (if leap then 1 else 0)
  | 4 => 90 + (if leap then 1 else 0)
  | 5 => 120 + (if leap then 1 else 0)
  | 6 => 151 + (if leap then 1 else 0)
  | 7 => 181 + (if leap then 1 else 0)
  | 8 => 212 + (if leap then 1 else 0)
  | 9 => 243 + (if leap then 1 else 0)
  | 10 => 273 + (if leap then 1 else 0)
  | 11 => 304 + (if leap then 1 else 0)
  | 12 => 334 + (if leap then 1 else 0)
  | 13 => 365 + (if leap then 1 else 0)
  | _ => 0

/- The week column of the source before any fix-up: the raw ISO week
   number that line 192 stores in the week column of the frame. -/
def rawWeek (y doy : Nat) : Nat :=
  isocalWeek y doy

/- The week column after the January fix-up of line 199: a January date
   whose ISO week is greater than 50 is reassigned week 0. -/
def week1 (y doy : Nat) : Nat :=
  if monthOfDoy (isLeap y) doy = 1 ∧ 50 < rawWeek y doy then 0
  else rawWeek y doy

/- The scalar by_day.week.max() evaluated on line 200: the maximum of the
   week column (after the January fix-up) over all dates of the year. -/
def maxWeek1 (y : Nat) : Nat :=
  (List.range' 1 (daysInYear y)).foldl (fun a d => max a (week1 y d)) 0

/- The final week column after the December fix-up of lines 200 to 202: a
   December date whose week (still its ISO week) is below 10 is reassigned
   to by_day.week.max() + 1. -/
def weekFixed (y doy : Nat) : Nat :=
  if monthOfDoy (isLeap y) doy = 12 ∧ week1 y doy < 10 then maxWeek1 y + 1
  else week1 y doy

/- Configuration-level versions of the week pipeline.  Within a fixed year
   everything above depends on the year only through the weekday of its
   January 1 (w1), its leap flag, and the length of the previous ISO year,
   and the last dependency only via the test "ISO week greater than 50",
   which holds for every January date belonging to the previous ISO year.
   These cFoo functions compute the same pipeline from (w1, leap) alone;
   the bridge lemmas below prove them equal to the year-level functions,
   and decidable case checks over the 14 configurations settle the closed
   forms. -/

/- Length of a year with the given leap flag. -/
def cLen (leap : Bool) : Nat :=
  if leap then 366 else 365

/- Weekday of January 1 of the following year. -/
def cJan1Next (w1 : Nat) (leap : Bool) : Nat :=
  (w1 + cLen leap) % 7

/- Configuration-level version of week1 (ISO week with the January
   fix-up already applied).  The first branch covers the dates before the
   Monday of ISO week 1 of the year: they are January dates whose ISO week
   belongs to the previous ISO year (52 or 53, in any case above 50), so
   line 199 maps them to 0. -/
def cWeek1 (w1 : Nat) (leap : Bool) (doy : Nat) : Nat :=
  if 4 ≤ w1 ∧ doy + w1 ≤ 7 then 0
  else if 52 ≤ (doy + w1 - 1 - (if 3 < w1 then 7 else 0)) / 7 ∧
          cLen leap + 1 + (if 3 < cJan1Next w1 leap then 7 else 0) ≤
            doy + cJan1Next w1 leap then
    1
  else if doy ≤ 31 ∧ 50 < (doy + w1 - 1 - (if 3 < w1 then 7 else 0)) / 7 + 1 then 0
  else (doy + w1 - 1 - (if 3 < w1 then 7 else 0)) / 7 + 1

/- Configuration-level version of maxWeek1. -/
def cMaxWeek1 (w1 : Nat) (leap : Bool) : Nat :=
  (List.range' 1 (cLen leap)).foldl (fun a d => max a (cWeek1 w1 leap d)) 0

/- Configuration-level version of weekFixed, with the value of
   by_day.week.max() passed explicitly as M. -/
def cWeekFixedM (w1 : Nat) (leap : Bool) (M doy : Nat) : Nat :=
  if 334 + (if leap then 1 else 0) < doy ∧ cWeek1 w1 leap doy < 10 then M + 1
  else cWeek1 w1 leap doy

/- The smallest week column of the year: 0 exactly when January 1 falls on
   Friday, Saturday or Sunday (then line 199 creates week 0), else 1. -/
def minWeekCol (y : Nat) : Nat :=
  if 4 ≤ jan1wd y then 0 else 1

/- The largest week column of the year after both fix-ups; closed form
   proved in weekFixed_formula below. -/
def maxColVal (y : Nat) : Nat :=
  (daysInYear y + jan1wd y - 1) / 7 + minWeekCol y

/- Columns of the pivoted grid (line 205): the distinct values of the week
   column over the dates of the year.  A cell is addressed positionally; the
   positional index of a week value in the ascending distinct column order
   equals the number of distinct column values below it. -/
def colsFinset (y : Nat) : Finset Nat :=
  (Finset.Icc 1 (daysInYear y)).image (weekFixed y)

/- Number of week columns of the pivoted grid: plot_data.shape[1]. -/
def numCols (y : Nat) : Nat :=
  (colsFinset y).card

/- Positional column index of the date with day-of-year doy in the pivoted
   grid: its rank among the ascending distinct week values. -/
def posCol (y doy : Nat) : Nat :=
  ((colsFinset y).filter (fun w => w < weekFixed y doy)).card

/- Timestamps of the Pandas DatetimeIndex, projected to the features the
   code inspects: calendar year, day-of-year inside it, and the second
   within the day (0 for a midnight timestamp, the granularity produced by
   pd.date_range(freq="D")).  Chronological order is lexicographic. -/
structure Ts where
  year : Nat
  doy : Nat
  sec : Nat
deriving DecidableEq

/- Strict chronological order on timestamps. -/
def tsLtb (a b : Ts) : Bool :=
  decide (a.year < b.year ∨ (a.year = b.year ∧
    (a.doy < b.doy ∨ (a.doy = b.doy ∧ a.sec < b.sec))))

/- Insertion into a chronologically sorted list. -/
def insertTs (x : Ts) : List Ts → List Ts
  | [] => [x]
  | y :: ys => if tsLtb x y then x :: y :: ys else y :: insertTs x ys

/- Chronological insertion sort, modelling Index.sort_values(). -/
def sortTs (l : List Ts) : List Ts :=
  l.foldr insertTs []

/- A Pandas Series indexed by timestamps, as the list of
   (index entry, value) pairs in index order. -/
abbrev Series := List (Ts × Int)

/- The index of a series. -/
def seriesKeys (s : Series) : List Ts :=
  s.map (fun p => p.1)

/- data.groupby(level=0).agg(how) from lines 154 and 432: the groups are
   the DISTINCT INDEX VALUES (exact timestamps, not calendar days); the
   group keys come out sorted chronologically, and each key is mapped to
   the aggregation of the values carrying exactly that index value. -/
def groupbyAgg (agg : List Int → Int) (s : Series) : Series :=
  (sortTs (seriesKeys s).eraseDups).map
    (fun k => (k, agg ((s.filter (fun p => decide (p.1 = k))).map (fun p => p.2))))

/- Lines 148 to 156 of yearplot: with how=None the data is passed through,
   otherwise it is grouped by index value and aggregated. -/
def yearplotByDay (how : Option (List Int → Int)) (data : Series) : Series :=
  match how with
  | none => data
  | some agg => groupbyAgg agg data

/- Lines 427 to 434 of calendarplot: the identical resampling, performed
   once before the per-year loop. -/
def calendarplotByDay (how : Option (List Int → Int)) (data : Series) : Series :=
  match how with
  | none => data
  | some agg => groupbyAgg agg data

/- Line 179: by_day[str(year)], restriction of the series to one year. -/
def filterYear (s : Series) (y : Nat) : Series :=
  s.filter (fun p => decide (p.1.year = y))

/- Lines 182 to 184: reindex over the full year of midnight dates; the
   value at the date with day-of-year doy is the value stored at the exact
   midnight timestamp if present, and the NaN marker (none) otherwise. -/
def reindexed (s : Series) (y doy : Nat) : Option Int :=
  (s.find? (fun p => decide (p.1 = Ts.mk y doy 0))).map (fun p => p.2)

/- The index pd.date_range(start=str(year), end=str(year+1), freq="D")[:-1]
   of lines 182 to 184: all midnight dates from Jan 1 of the year through
   Jan 1 of the following year, with the last entry dropped. -/
def byDayIndexList (y : Nat) : List Ts :=
  ((List.range' 1 (daysInYear y)).map (fun d => Ts.mk y d 0)
    ++ [Ts.mk (y + 1) 1 0]).dropLast

/- Value of the pivoted data grid (lines 205 and 206) at the cell with
   weekday row label day and week column label w: the data value of the
   unique date of the year falling in that cell, none (masked) when the
   date carries no data or no date of the year falls there. -/
def cellValue (y : Nat) (s : Series) (day w : Nat) : Option Int :=
  match (List.range' 1 (daysInYear y)).find?
      (fun d => decide (pyWeekday y d = day ∧ weekFixed y d = w)) with
  | some d => reindexed s y d
  | none => none

/- The data grid drawn by yearplot for a given year, as a function from
   (weekday row label, week column label) to the optional cell value. -/
def yearplotGrid (how : Option (List Int → Int)) (data : Series) (y : Nat) :
    Nat → Nat → Option Int :=
  fun day w => cellValue y (filterYear (yearplotByDay how data) y) day w

/- The grid drawn for one year by calendarplot: it resamples once
   (calendarplotByDay) and calls yearplot with how=None (line 447). -/
def calendarplotYearGrid (how : Option (List Int → Int)) (data : Series) (y : Nat) :
    Nat → Nat → Option Int :=
  yearplotGrid none (calendarplotByDay how data) y

/- Lines 145 and 146: with year=None, yearplot uses
   data.index.sort_values()[0].year, the year of the first entry of the
   sorted index. -/
def sortedIndex (s : Series) : List Ts :=
  sortTs (seriesKeys s)

def autoYear (s : Series) : Nat :=
  ((sortedIndex s).headD (Ts.mk 0 0 0)).year

def chosenYear (year : Option Nat) (s : Series) : Nat :=
  year.getD (autoYear s)

/- The grid yearplot renders given the optional year argument. -/
def yearplotEntry (year : Option Nat) (how : Option (List Int → Int))
    (data : Series) : Nat → Nat → Option Int :=
  yearplotGrid how data (chosenYear year data)

/- Series.min()/max() over the values (Pandas reductions; none on an empty
   series, where Pandas yields NaN). -/
def valuesMin (s : Series) : Option Int :=
  (s.map (fun p => p.2)).min?

def valuesMax (s : Series) : Option Int :=
  (s.map (fun p => p.2)).max?

/- Lines 159 to 162 of yearplot: vmin/vmax default to the min/max of the
   resampled-by-day series (computed before the year filter) and an
   explicit argument wins. -/
def yearplotVminUsed (vmin : Option Int) (how : Option (List Int → Int))
    (data : Series) : Option Int :=
  match vmin with
  | some v => some v
  | none => valuesMin (yearplotByDay how data)

def yearplotVmaxUsed (vmax : Option Int) (how : Option (List Int → Int))
    (data : Series) : Option Int :=
  match vmax with
  | some v => some v
  | none => valuesMax (yearplotByDay how data)

/- Python keyword-dictionary lookup kwargs.get(key, default-is-none). -/
def kwargsLookup (kwargs : List (String × Int)) (key : String) : Option Int :=
  (kwargs.find? (fun p => decide (p.1 = key))).map (fun p => p.2)

/- Line 386 of calendarplot:
   vmin, vmax = kwargs.get("vmin", data.min()), kwargs.get("vmax", data.max()).
   The vmin/vmax PARAMETERS of calendarplot are named parameters, so a
   caller-supplied vmin/vmax is bound to them and can never appear in
   kwargs; line 386 rebinds the local names from kwargs (where the keys are
   always absent) with the raw, not yet resampled, data as default.  The
   first argument below models the named parameter and is (faithfully)
   ignored. -/
def calendarplotVminUsed (_vminParam : Option Int) (kwargs : List (String × Int))
    (data : Series) : Option Int :=
  match kwargsLookup kwargs "vmin" with
  | some v => some v
  | none => valuesMin data

def calendarplotVmaxUsed (_vmaxParam : Option Int) (kwargs : List (String × Int))
    (data : Series) : Option Int :=
  match kwargsLookup kwargs "vmax" with
  | some v => some v
  | none => valuesMax data

/- Line 408 of calendarplot: the legend construction reads kwargs["cmap"]
   by bare subscript; a missing key raises KeyError (modelled as error). -/
def calendarplotLegendCmap {α : Type} (kwargs : List (String × α)) : Except Unit α :=
  match kwargs.find? (fun p => decide (p.1 = "cmap")) with
  | some p => Except.ok p.2
  | none => Except.error ()

/- how="sum" as an aggregation over the values of a group. -/
def sumAgg (l : List Int) : Int :=
  l.foldl (fun a v => a + v) 0

/- Two sub-daily timestamps on the same calendar day (2020-01-01 at 08:00
   and at 14:00), the input exercising the resampling step. -/
def c3Input : Series :=
  [(Ts.mk 2020 1 28800, 1), (Ts.mk 2020 1 50400, 2)]

/- Line 221 of yearplot: ax.set_xlim upper bound is plot_data.shape[1],
   the number of week columns. -/
def yearplotXlim (y : Nat) : Nat :=
  numCols y

/- Lines 444 to 448 of calendarplot: max_weeks accumulated over the years
   rendered. -/
def maxWeeks (ys : List Nat) : Nat :=
  ys.foldl (fun a y => max a (yearplotXlim y)) 0

/- Lines 455 and 456: every subplot gets xlim (0, max_weeks). -/
def finalXlims (ys : List Nat) : List Nat :=
  ys.map (fun _ => maxWeeks ys)

/- Month geometry of the month border block (lines 252 to 274).  The first
   day of month m has day-of-year daysBeforeMonth m + 1 and its last day
   has day-of-year daysBeforeMonth (m+1); int(date.strftime("%j")) is the
   day-of-year. -/
def monthFirstDoy (leap : Bool) (m : Nat) : Nat :=
  daysBeforeMonth leap m + 1

def monthLastDoy (leap : Bool) (m : Nat) : Nat :=
  daysBeforeMonth leap (m + 1)

/- Line 259: start = datetime(year, 1, 1).weekday(). -/
def monthBorderStart (y : Nat) : Nat :=
  pyWeekday y 1

/- Lines 260 and 261: x0/x1, the week-column coordinates of the first and
   last day of the month. -/
def monthBorderX0 (y m : Nat) : Nat :=
  (monthFirstDoy (isLeap y) m + monthBorderStart y - 1) / 7

def monthBorderX1 (y m : Nat) : Nat :=
  (monthLastDoy (isLeap y) m + monthBorderStart y - 1) / 7

/- Line 273: the month label tick x0 + (x1 - x0 + 1) / 2, with Python
   float (exact rational) division. -/
def monthTickX (y m : Nat) : ℚ :=
  (monthBorderX0 y m : ℚ) + ((monthBorderX1 y m : ℚ) - (monthBorderX0 y m : ℚ) + 1) / 2

/- Sanity checks of the embedded ISO calendar against known values of
   Python datetime.date(...).isocalendar(). -/

lemma daysInYear_ge (y : Nat) : 365 ≤ daysInYear y := by
  unfold daysInYear; split_ifs <;> omega

lemma daysInYear_le (y : Nat) : daysInYear y ≤ 366 := by
  unfold daysInYear; split_ifs <;> omega

set_option maxHeartbeats 3000000 in
lemma daysBeforeYear_succ (y : Nat) (hy : 1 ≤ y) :
    daysBeforeYear (y + 1) = daysBeforeYear y + daysInYear y := by
  have h : isLeap y = true ↔ (y % 4 = 0 ∧ y % 100 ≠ 0) ∨ y % 400 = 0 := by
    simp [isLeap, Bool.or_eq_true, Bool.and_eq_true]
  unfold daysBeforeYear daysInYear
  split_ifs with hl
  · rw [h] at hl; omega
  · rw [h] at hl; omega

lemma monthOfDoy_one_iff :
    ∀ leap : Bool, ∀ doy, doy < 367 → (monthOfDoy leap doy = 1 ↔ doy ≤ 31) := by
  decide

lemma monthOfDoy_twelve_iff :
    ∀ leap : Bool, ∀ doy, doy < 367 →
      (monthOfDoy leap doy = 12 ↔ 334 + (if leap then 1 else 0) < doy) := by
  decide

set_option maxHeartbeats 4000000 in
lemma week1_bridge (y doy : Nat) (hy : 1 ≤ y) (h1 : 1 ≤ doy) (h2 : doy ≤ daysInYear y) :
    week1 y doy = cWeek1 (jan1wd y) (isLeap y) doy := by
  have hm1 := monthOfDoy_one_iff (isLeap y) doy (by have := daysInYear_le y; omega)
  have hnext : daysBeforeYear (y + 1) = daysBeforeYear y + daysInYear y :=
    daysBeforeYear_succ y hy
  have hL : cLen (isLeap y) = daysInYear y := rfl
  have hL2 : daysInYear y = 365 ∨ daysInYear y = 366 := by
    unfold daysInYear; split_ifs <;> simp
  rcases Nat.lt_or_ge 1 y with h2y | h1y
  · have hprev : daysBeforeYear y = daysBeforeYear (y - 1) + daysInYear (y - 1) := by
      have h := daysBeforeYear_succ (y - 1) (by omega)
      rw [Nat.sub_add_cancel (by omega)] at h
      exact h
    have hLp : daysInYear (y - 1) = 365 ∨ daysInYear (y - 1) = 366 := by
      unfold daysInYear; split_ifs <;> simp
    simp only [week1, cWeek1, rawWeek, isocalWeek, isoweek1monday, jan1wd, cJan1Next, hL]
    rw [hnext]
    split_ifs <;> omega
  · have hy1 : y = 1 := by omega
    subst hy1
    have hd1 : daysBeforeYear 1 = 0 := by decide
    have hd0 : daysBeforeYear 0 = 0 := by decide
    have hd2 : daysBeforeYear 2 = 365 := by decide
    have hlp : isLeap 1 = false := by decide
    rw [hlp] at hm1
    have hclen : cLen false = 365 := by decide
    have h2' : doy ≤ 365 := by
      have := daysInYear_le 1
      have h365 : daysInYear 1 = 365 := by decide
      omega
    simp only [week1, cWeek1, rawWeek, isocalWeek, isoweek1monday, jan1wd, cJan1Next,
      hL, hd1, hd0, hd2, hlp, hclen]
    split_ifs <;> omega

lemma foldl_max_congr (f g : Nat → Nat) (l : List Nat) (a : Nat)
    (h : ∀ x ∈ l, f x = g x) :
    l.foldl (fun b x => max b (f x)) a = l.foldl (fun b x => max b (g x)) a := by
  induction l generalizing a with
  | nil => rfl
  | cons x xs ih =>
    simp only [List.foldl_cons]
    rw [h x (by simp)]
    exact ih _ (fun z hz => h z (by simp [hz]))

lemma maxWeek1_bridge (y : Nat) (hy : 1 ≤ y) :
    maxWeek1 y = cMaxWeek1 (jan1wd y) (isLeap y) := by
  have hL : cLen (isLeap y) = daysInYear y := rfl
  unfold maxWeek1 cMaxWeek1
  rw [hL]
  exact foldl_max_congr _ _ _ _ (fun d hd => by
    have hmem := List.mem_range'_1.1 hd
    exact week1_bridge y d hy (by omega) (by omega))

lemma weekFixed_bridge (y doy : Nat) (hy : 1 ≤ y) (h1 : 1 ≤ doy)
    (h2 : doy ≤ daysInYear y) :
    weekFixed y doy =
      cWeekFixedM (jan1wd y) (isLeap y) (cMaxWeek1 (jan1wd y) (isLeap y)) doy := by
  have h12 := monthOfDoy_twelve_iff (isLeap y) doy (by have := daysInYear_le y; omega)
  have hw := week1_bridge y doy hy h1 h2
  have hmx := maxWeek1_bridge y hy
  unfold weekFixed cWeekFixedM
  rw [hmx, hw]
  exact if_congr (and_congr_left' h12) rfl rfl

lemma cMaxWeek1_closed :
    ∀ w1, w1 < 7 → ∀ leap : Bool,
      cMaxWeek1 w1 leap = if w1 = 3 ∨ (leap = true ∧ w1 = 2) then 53 else 52 := by
  decide

lemma cWeekFixed_closed :
    ∀ w1, w1 < 7 → ∀ leap : Bool, ∀ doy, doy < 367 →
      1 ≤ doy → doy ≤ cLen leap →
      cWeekFixedM w1 leap (if w1 = 3 ∨ (leap = true ∧ w1 = 2) then 53 else 52) doy =
        (doy + w1 - 1) / 7 + (if 4 ≤ w1 then 0 else 1) := by
  decide

/- Master closed form: after both fix-ups, the week column of a date is
   exactly its Monday-aligned week index counted from the week of January 1
   (the quantity computed by the month border code on lines 260 and 261),
   shifted by the smallest column of the year. -/
lemma weekFixed_formula (y doy : Nat) (hy : 1 ≤ y) (h1 : 1 ≤ doy)
    (h2 : doy ≤ daysInYear y) :
    weekFixed y doy = (doy + jan1wd y - 1) / 7 + minWeekCol y := by
  have hw7 : jan1wd y < 7 := Nat.mod_lt _ (by omega)
  have hb := weekFixed_bridge y doy hy h1 h2
  have hc := cMaxWeek1_closed (jan1wd y) hw7 (isLeap y)
  have hL : cLen (isLeap y) = daysInYear y := rfl
  have h366 : doy < 367 := by
    have := daysInYear_le y
    omega
  have hf := cWeekFixed_closed (jan1wd y) hw7 (isLeap y) doy h366 h1 (by rw [hL]; exact h2)
  rw [hb, hc, hf]
  unfold minWeekCol
  rfl

lemma jan1wd_lt (y : Nat) : jan1wd y < 7 :=
  Nat.mod_lt _ (by omega)

lemma colsFinset_eq (y : Nat) (hy : 1 ≤ y) :
    colsFinset y = Finset.Icc (minWeekCol y) (maxColVal y) := by
  have hw7 : jan1wd y < 7 := jan1wd_lt y
  have hge := daysInYear_ge y
  ext k
  simp only [colsFinset, Finset.mem_image, Finset.mem_Icc]
  constructor
  · rintro ⟨d, hd, rfl⟩
    rw [weekFixed_formula y d hy hd.1 hd.2]
    unfold maxColVal
    have hd2 := hd.2
    omega
  · intro hk
    unfold maxColVal at hk
    rcases Nat.eq_or_lt_of_le hk.1 with heq | hlt
    · refine ⟨1, ⟨le_refl 1, by omega⟩, ?_⟩
      rw [weekFixed_formula y 1 hy (le_refl 1) (by omega)]
      omega
    · have hd1 : 1 ≤ 7 * (k - minWeekCol y) + 1 - jan1wd y := by omega
      have hd2 : 7 * (k - minWeekCol y) + 1 - jan1wd y ≤ daysInYear y := by
        omega
      refine ⟨7 * (k - minWeekCol y) + 1 - jan1wd y, ⟨hd1, hd2⟩, ?_⟩
      rw [weekFixed_formula y _ hy hd1 hd2]
      omega

lemma weekFixed_le_max (y doy : Nat) (hy : 1 ≤ y) (h1 : 1 ≤ doy)
    (h2 : doy ≤ daysInYear y) :
    minWeekCol y ≤ weekFixed y doy ∧ weekFixed y doy ≤ maxColVal y := by
  rw [weekFixed_formula y doy hy h1 h2]
  unfold maxColVal
  omega

lemma posCol_eq (y doy : Nat) (hy : 1 ≤ y) (h1 : 1 ≤ doy) (h2 : doy ≤ daysInYear y) :
    posCol y doy = weekFixed y doy - minWeekCol y := by
  have hb := weekFixed_le_max y doy hy h1 h2
  unfold posCol
  rw [colsFinset_eq y hy]
  have hfe : (Finset.Icc (minWeekCol y) (maxColVal y)).filter
      (fun w => w < weekFixed y doy) = Finset.Ico (minWeekCol y) (weekFixed y doy) := by
    ext k
    simp only [Finset.mem_filter, Finset.mem_Icc, Finset.mem_Ico]
    omega
  rw [hfe, Nat.card_Ico]

lemma numCols_closed (y : Nat) (hy : 1 ≤ y) :
    numCols y = (daysInYear y + jan1wd y - 1) / 7 + 1 := by
  unfold numCols
  rw [colsFinset_eq y hy, Nat.card_Icc]
  unfold maxColVal minWeekCol
  split_ifs <;> omega

lemma weekFixed_inj (y d1 d2 : Nat) (hy : 1 ≤ y) (h11 : 1 ≤ d1) (h12 : d1 ≤ daysInYear y)
    (h21 : 1 ≤ d2) (h22 : d2 ≤ daysInYear y)
    (hwd : pyWeekday y d1 = pyWeekday y d2) (hwk : weekFixed y d1 = weekFixed y d2) :
    d1 = d2 := by
  rw [weekFixed_formula y d1 hy h11 h12, weekFixed_formula y d2 hy h21 h22] at hwk
  unfold pyWeekday at hwd
  unfold jan1wd at hwk
  omega

lemma tsLtb_self (a : Ts) : tsLtb a a = false := by
  simp [tsLtb]

lemma tsLtb_step (x h a : Ts) (h1 : tsLtb x h = true) (h2 : tsLtb a h = false) :
    tsLtb a x = false := by
  simp only [tsLtb, decide_eq_true_eq, decide_eq_false_iff_not] at *
  omega

lemma sortTs_cons (x : Ts) (l : List Ts) : sortTs (x :: l) = insertTs x (sortTs l) := rfl

lemma mem_insertTs (x a : Ts) (l : List Ts) : a ∈ insertTs x l ↔ a = x ∨ a ∈ l := by
  induction l with
  | nil => simp [insertTs]
  | cons y ys ih =>
    simp only [insertTs]
    split_ifs
    · simp [List.mem_cons]
    · simp only [List.mem_cons, ih]
      tauto

lemma mem_sortTs (a : Ts) (l : List Ts) : a ∈ sortTs l ↔ a ∈ l := by
  induction l with
  | nil => simp [sortTs]
  | cons x xs ih =>
    rw [sortTs_cons]
    simp only [mem_insertTs, ih, List.mem_cons]

lemma insertTs_length (x : Ts) (l : List Ts) :
    (insertTs x l).length = l.length + 1 := by
  induction l with
  | nil => rfl
  | cons y ys ih =>
    simp only [insertTs]
    split_ifs
    · simp
    · simp [ih]

lemma sortTs_length (l : List Ts) : (sortTs l).length = l.length := by
  induction l with
  | nil => rfl
  | cons x xs ih =>
    rw [sortTs_cons, insertTs_length, ih]
    rfl

lemma sortTs_head_min (l : List Ts) (dflt : Ts) :
    ∀ a ∈ l, tsLtb a ((sortTs l).headD dflt) = false := by
  induction l with
  | nil => simp
  | cons x xs ih =>
    intro a ha
    rw [sortTs_cons]
    cases hs : sortTs xs with
    | nil =>
      simp only [insertTs, List.headD_cons]
      rcases List.mem_cons.1 ha with rfl | hmem
      · exact tsLtb_self a
      · exfalso
        have hm := (mem_sortTs a xs).2 hmem
        rw [hs] at hm
        cases hm
    | cons h t =>
      simp only [insertTs]
      split_ifs with hcmp
      · simp only [List.headD_cons]
        rcases List.mem_cons.1 ha with rfl | hmem
        · exact tsLtb_self a
        · have hha := ih a hmem
          rw [hs] at hha
          simp only [List.headD_cons] at hha
          exact tsLtb_step x h a hcmp hha
      · simp only [List.headD_cons]
        rcases List.mem_cons.1 ha with rfl | hmem
        · exact Bool.eq_false_iff.mpr hcmp
        · have hha := ih a hmem
          rw [hs] at hha
          simpa using hha

lemma foldl_max_init_le (f : Nat → Nat) (l : List Nat) :
    ∀ a : Nat, a ≤ l.foldl (fun b z => max b (f z)) a := by
  induction l with
  | nil => intro a; exact le_refl a
  | cons x xs ih =>
    intro a
    simp only [List.foldl_cons]
    exact le_trans (le_max_left a (f x)) (ih _)

lemma foldl_max_mem_le (f : Nat → Nat) (l : List Nat) :
    ∀ a : Nat, ∀ x ∈ l, f x ≤ l.foldl (fun b z => max b (f z)) a := by
  induction l with
  | nil => intro a x hx; cases hx
  | cons y ys ih =>
    intro a x hx
    simp only [List.foldl_cons]
    rcases List.mem_cons.1 hx with rfl | hmem
    · exact le_trans (le_max_right a (f x)) (foldl_max_init_le f ys _)
    · exact ih _ x hmem

lemma foldl_max_attained (f : Nat → Nat) (l : List Nat) :
    ∀ a : Nat, l.foldl (fun b z => max b (f z)) a = a ∨
      ∃ x ∈ l, l.foldl (fun b z => max b (f z)) a = f x := by
  induction l with
  | nil => intro a; exact Or.inl rfl
  | cons y ys ih =>
    intro a
    simp only [List.foldl_cons]
    rcases ih (max a (f y)) with h | ⟨x, hx, he⟩
    · rcases Nat.le_total a (f y) with hle | hle
      · right
        exact ⟨y, by simp, by rw [h]; exact max_eq_right hle⟩
      · left
        rw [h]
        exact max_eq_left hle
    · right
      exact ⟨x, by simp [hx], he⟩

lemma numCols_pos (y : Nat) : 1 ≤ numCols y := by
  have h1 : (1 : Nat) ∈ Finset.Icc 1 (daysInYear y) := by
    rw [Finset.mem_Icc]
    exact ⟨le_refl 1, by have := daysInYear_ge y; omega⟩
  have hm : weekFixed y 1 ∈ colsFinset y := Finset.mem_image_of_mem _ h1
  exact Finset.card_pos.2 ⟨_, hm⟩

lemma numCols_2012 : numCols 2012 = 54 := by
  rw [numCols_closed 2012 (by omega)]
  decide

lemma numCols_2013 : numCols 2013 = 53 := by
  rw [numCols_closed 2013 (by omega)]
  decide

lemma monthDoy_bounds :
    ∀ leap : Bool, ∀ m, m < 13 → 1 ≤ m →
      1 ≤ monthFirstDoy leap m ∧ monthFirstDoy leap m ≤ cLen leap ∧
      1 ≤ monthLastDoy leap m ∧ monthLastDoy leap m ≤ cLen leap := by
  decide

lemma monthBorderStart_eq (y : Nat) : monthBorderStart y = jan1wd y := by
  unfold monthBorderStart pyWeekday jan1wd
  omega

/-- C1: for every target year, the day-grid builder maps each date of the
year to exactly one (weekday row, week column) cell — the weekday is one of
the 7 rows and the fixed-up week lies in the column range of the year — and
no two distinct dates of the year share a cell: the assignment
d ↦ (pyWeekday y d, weekFixed y d) is injective over all 365/366 dates. -/
theorem claim_C1 (y : Nat) (hy : 1 ≤ y) :
    (∀ d, 1 ≤ d → d ≤ daysInYear y →
      pyWeekday y d < 7 ∧ minWeekCol y ≤ weekFixed y d ∧ weekFixed y d ≤ maxColVal y) ∧
    (∀ d1 d2, 1 ≤ d1 → d1 ≤ daysInYear y → 1 ≤ d2 → d2 ≤ daysInYear y →
      pyWeekday y d1 = pyWeekday y d2 → weekFixed y d1 = weekFixed y d2 → d1 = d2) := by
  constructor
  · intro d h1 h2
    have hb := weekFixed_le_max y d hy h1 h2
    exact ⟨Nat.mod_lt _ (by omega), hb.1, hb.2⟩
  · intro d1 d2 h11 h12 h21 h22 hwd hwk
    exact weekFixed_inj y d1 d2 hy h11 h12 h21 h22 hwd hwk

theorem claim_C1_witness :
    (1 ≤ 2024 ∧ 1 ≤ (15 : Nat) ∧ 15 ≤ daysInYear 2024) ∧ (15 : Nat) = 15 :=
  ⟨⟨by omega, by omega, by decide⟩,
    (claim_C1 2024 (by omega)).2 15 15 (by omega) (by decide) (by omega) (by decide)
      rfl rfl⟩

/-- C2: after the boundary fix-up, every January date with ISO week above
50 has week column 0, every December date with ISO week below 10 has week
column max(week)+1, every other date keeps its natural ISO week, and the
set of week columns is exactly the gap-free range from the smallest column
to the largest. -/
theorem claim_C2 (y : Nat) (hy : 1 ≤ y) :
    (∀ d, 1 ≤ d → d ≤ daysInYear y →
      (monthOfDoy (isLeap y) d = 1 → 50 < rawWeek y d → weekFixed y d = 0) ∧
      (monthOfDoy (isLeap y) d = 12 → rawWeek y d < 10 →
        weekFixed y d = maxWeek1 y + 1) ∧
      (¬(monthOfDoy (isLeap y) d = 1 ∧ 50 < rawWeek y d) →
        ¬(monthOfDoy (isLeap y) d = 12 ∧ rawWeek y d < 10) →
        weekFixed y d = rawWeek y d)) ∧
    (∀ k, (∃ d, 1 ≤ d ∧ d ≤ daysInYear y ∧ weekFixed y d = k) ↔
      (minWeekCol y ≤ k ∧ k ≤ maxColVal y)) := by
  constructor
  · intro d _ _
    refine ⟨?_, ?_, ?_⟩
    · intro hm hr
      have hw1 : week1 y d = 0 := by
        unfold week1
        rw [if_pos ⟨hm, hr⟩]
      unfold weekFixed
      rw [hw1, if_neg]
      rintro ⟨h12, _⟩
      rw [hm] at h12
      cases h12
    · intro hm hr
      have hw1 : week1 y d = rawWeek y d := by
        unfold week1
        rw [if_neg]
        rintro ⟨h1m, _⟩
        rw [hm] at h1m
        cases h1m
      unfold weekFixed
      rw [hw1, if_pos ⟨hm, hr⟩]
    · intro hn1 hn2
      have hw1 : week1 y d = rawWeek y d := by
        unfold week1
        rw [if_neg hn1]
      unfold weekFixed
      rw [hw1, if_neg hn2]
  · intro k
    constructor
    · rintro ⟨d, h1, h2, rfl⟩
      exact weekFixed_le_max y d hy h1 h2
    · intro hk
      have hmem : k ∈ colsFinset y := by
        rw [colsFinset_eq y hy]
        exact Finset.mem_Icc.2 hk
      simp only [colsFinset, Finset.mem_image, Finset.mem_Icc] at hmem
      obtain ⟨d, hd, he⟩ := hmem
      exact ⟨d, hd.1, hd.2, he⟩

theorem claim_C2_witness :
    weekFixed 2021 1 = 0 ∧ weekFixed 2012 366 = maxWeek1 2012 + 1 ∧
    weekFixed 2021 100 = rawWeek 2021 100 :=
  ⟨((claim_C2 2021 (by omega)).1 1 (by omega) (by decide)).1 (by decide) (by decide),
   ((claim_C2 2012 (by omega)).1 366 (by omega) (by decide)).2.1 (by decide) (by decide),
   ((claim_C2 2021 (by omega)).1 100 (by omega) (by decide)).2.2 (by decide) (by decide)⟩

/-- C3 (code bug): with pandas at or above 0.18, the resampling step on
line 154 groups by EXACT index value (groupby(level=0)), not by calendar
day, contradicting the adjacent comment "Sample by day." and the docstring
"Method for resampling data by day": for the input with two sub-daily
timestamps on 2020-01-01 (08:00 and 14:00) and how=sum, the resampled
series still holds two entries for that calendar day, not one. -/
theorem claim_C3 :
    (groupbyAgg sumAgg c3Input).countP
      (fun p => decide (p.1.year = 2020 ∧ p.1.doy = 1)) = 2 ∧
    (groupbyAgg sumAgg c3Input).length = 2 := by
  constructor <;> decide

/-- C4: the legend construction of calendarplot reads kwargs["cmap"] by
bare subscript (line 408); it raises exactly when the caller passed no
cmap keyword, and succeeds at that call site when cmap is present. -/
theorem claim_C4 {α : Type} :
    ∀ kwargs : List (String × α),
      ((∃ e, calendarplotLegendCmap kwargs = Except.error e) ↔
        "cmap" ∉ kwargs.map (fun p => p.1)) ∧
      ("cmap" ∈ kwargs.map (fun p => p.1) →
        ∃ v, calendarplotLegendCmap kwargs = Except.ok v) := by
  intro kwargs
  unfold calendarplotLegendCmap
  cases hf : kwargs.find? (fun p => decide (p.1 = "cmap")) with
  | none =>
    have hnone : "cmap" ∉ kwargs.map (fun p => p.1) := by
      intro hmem
      obtain ⟨p, hp, hpe⟩ := List.mem_map.1 hmem
      have := List.find?_eq_none.1 hf p hp
      simp only [decide_eq_true_eq] at this
      exact this hpe
    constructor
    · exact iff_of_true ⟨(), rfl⟩ hnone
    · intro hmem
      exact absurd hmem hnone
  | some p =>
    have hpe : p.1 = "cmap" := by
      have := List.find?_some hf
      simpa using this
    have hmem : "cmap" ∈ kwargs.map (fun q => q.1) :=
      List.mem_map.2 ⟨p, List.mem_of_find?_eq_some hf, hpe⟩
    constructor
    · constructor
      · rintro ⟨e, he⟩
        cases he
      · intro hnot
        exact absurd hmem hnot
    · intro _
      exact ⟨p.2, rfl⟩

/-- C5 (code bug): in yearplot, vmin/vmax default to the min/max of the
resampled-by-day series and an explicit argument is used as given; in
calendarplot, however, line 386 rebinds vmin/vmax from kwargs — where the
keys can never occur, both being named parameters — so an explicitly
passed vmin=5/vmax=20 is discarded and the legend bounds come from the
RAW data min/max (here 1 and 10), contradicting the docstring. -/
theorem claim_C5 :
    (∀ (q : Int) (how : Option (List Int → Int)) (data : Series),
      yearplotVminUsed (some q) how data = some q ∧
      yearplotVmaxUsed (some q) how data = some q) ∧
    (∀ (how : Option (List Int → Int)) (data : Series),
      yearplotVminUsed none how data = valuesMin (yearplotByDay how data) ∧
      yearplotVmaxUsed none how data = valuesMax (yearplotByDay how data)) ∧
    calendarplotVminUsed (some 5) []
      [(Ts.mk 2020 1 0, 1), (Ts.mk 2020 2 0, 10)] = some 1 ∧
    calendarplotVmaxUsed (some 20) []
      [(Ts.mk 2020 1 0, 1), (Ts.mk 2020 2 0, 10)] = some 10 ∧
    (∀ (p : Option Int) (kwargs : List (String × Int)) (data : Series),
      kwargsLookup kwargs "vmin" = none →
      calendarplotVminUsed p kwargs data = valuesMin data) := by
  refine ⟨fun q how data => ⟨rfl, rfl⟩, fun how data => ⟨rfl, rfl⟩, by decide, by decide, ?_⟩
  intro p kwargs data hk
  unfold calendarplotVminUsed
  rw [hk]

theorem claim_C5_witness :
    kwargsLookup [] "vmin" = none ∧
    calendarplotVminUsed (some 5) [] [(Ts.mk 2020 1 0, 1)] =
      valuesMin [(Ts.mk 2020 1 0, 1)] :=
  ⟨rfl, claim_C5.2.2.2.2 (some 5) [] [(Ts.mk 2020 1 0, 1)] rfl⟩

/-- C6: the week-column coordinate computed by the month border code,
(day-of-year + weekday(Jan 1) - 1) / 7, equals the positional column index
of the date in the pivoted grid, for every date of the year; consequently
x0/x1 are the positional columns of the first/last day of each month and
the month tick x0 + (x1 - x0 + 1)/2 sits at the midpoint
(column(first) + column(last) + 1)/2 of the columns occupied by the month. -/
theorem claim_C6 (y : Nat) (hy : 1 ≤ y) :
    (∀ d, 1 ≤ d → d ≤ daysInYear y →
      (d + monthBorderStart y - 1) / 7 = posCol y d) ∧
    (∀ m, 1 ≤ m → m ≤ 12 →
      monthBorderX0 y m = posCol y (monthFirstDoy (isLeap y) m) ∧
      monthBorderX1 y m = posCol y (monthLastDoy (isLeap y) m) ∧
      monthTickX y m = ((posCol y (monthFirstDoy (isLeap y) m) : ℚ) +
        (posCol y (monthLastDoy (isLeap y) m) : ℚ) + 1) / 2) := by
  have hbs : monthBorderStart y = jan1wd y := monthBorderStart_eq y
  have part1 : ∀ d, 1 ≤ d → d ≤ daysInYear y →
      (d + monthBorderStart y - 1) / 7 = posCol y d := by
    intro d h1 h2
    rw [hbs, posCol_eq y d hy h1 h2, weekFixed_formula y d hy h1 h2]
    omega
  refine ⟨part1, ?_⟩
  intro m hm1 hm2
  have hL : cLen (isLeap y) = daysInYear y := rfl
  have hb := monthDoy_bounds (isLeap y) m (by omega) hm1
  have e0 : monthBorderX0 y m = posCol y (monthFirstDoy (isLeap y) m) := by
    unfold monthBorderX0
    exact part1 _ hb.1 (hL ▸ hb.2.1)
  have e1 : monthBorderX1 y m = posCol y (monthLastDoy (isLeap y) m) := by
    unfold monthBorderX1
    exact part1 _ hb.2.2.1 (hL ▸ hb.2.2.2)
  refine ⟨e0, e1, ?_⟩
  unfold monthTickX
  rw [e0, e1]
  ring

theorem claim_C6_witness :
    (100 + monthBorderStart 2021 - 1) / 7 = posCol 2021 100 ∧
    monthTickX 2021 3 = ((posCol 2021 (monthFirstDoy (isLeap 2021) 3) : ℚ) +
      (posCol 2021 (monthLastDoy (isLeap 2021) 3) : ℚ) + 1) / 2 :=
  ⟨(claim_C6 2021 (by omega)).1 100 (by omega) (by decide),
   ((claim_C6 2021 (by omega)).2 3 (by omega) (by omega)).2.2⟩

/-- C7: after calendarplot finishes, every per-year subplot has xlim
(0, max_weeks) where max_weeks is the maximum week-column count over the
rendered years, attained at one of them; concretely, years 2012 (54
columns) and 2013 (53 columns) rendered together both end at 54. -/
theorem claim_C7 :
    (∀ ys : List Nat,
      (∀ x ∈ finalXlims ys, x = maxWeeks ys) ∧
      (∀ y ∈ ys, yearplotXlim y ≤ maxWeeks ys) ∧
      (ys ≠ [] → ∃ y ∈ ys, maxWeeks ys = yearplotXlim y)) ∧
    maxWeeks [2012, 2013] = 54 ∧ yearplotXlim 2012 = 54 ∧ yearplotXlim 2013 = 53 ∧
    finalXlims [2012, 2013] = [54, 54] := by
  have hgen : ∀ ys : List Nat,
      (∀ x ∈ finalXlims ys, x = maxWeeks ys) ∧
      (∀ y ∈ ys, yearplotXlim y ≤ maxWeeks ys) ∧
      (ys ≠ [] → ∃ y ∈ ys, maxWeeks ys = yearplotXlim y) := by
    intro ys
    refine ⟨?_, ?_, ?_⟩
    · intro x hx
      obtain ⟨y, _, he⟩ := List.mem_map.1 hx
      exact he.symm
    · intro y hyy
      exact foldl_max_mem_le yearplotXlim ys 0 y hyy
    · intro hne
      rcases foldl_max_attained yearplotXlim ys 0 with h0 | ⟨x, hx, he⟩
      · exfalso
        cases ys with
        | nil => exact hne rfl
        | cons z zs =>
          have hle := foldl_max_mem_le yearplotXlim (z :: zs) 0 z (by simp)
          have hpos := numCols_pos z
          have hyx : yearplotXlim z = numCols z := rfl
          omega
      · exact ⟨x, hx, he⟩
  have h2012 : yearplotXlim 2012 = 54 := numCols_2012
  have h2013 : yearplotXlim 2013 = 53 := numCols_2013
  have hmx : maxWeeks [2012, 2013] = 54 := by
    unfold maxWeeks
    simp only [List.foldl_cons, List.foldl_nil, yearplotXlim, numCols_2012, numCols_2013]
    decide
  refine ⟨hgen, hmx, h2012, h2013, ?_⟩
  unfold finalXlims
  rw [hmx]
  rfl

theorem claim_C7_witness :
    ∃ y ∈ [2012, 2013], maxWeeks [2012, 2013] = yearplotXlim y :=
  (claim_C7.1 [2012, 2013]).2.2 (by decide)

/-- C8: the reindexing of lines 182 to 184 produces exactly one grid
position per calendar day of the year, 366 in a leap year and 365
otherwise, and a day with no entry in the input yields a masked (none)
cell of the data grid, never a zero. -/
theorem claim_C8 (y : Nat) (hy : 1 ≤ y) :
    (byDayIndexList y).length = daysInYear y ∧
    (isLeap y = true → (byDayIndexList y).length = 366) ∧
    (isLeap y = false → (byDayIndexList y).length = 365) ∧
    (∀ (data : Series) (d : Nat), 1 ≤ d → d ≤ daysInYear y →
      Ts.mk y d 0 ∉ seriesKeys data →
      yearplotGrid none data y (pyWeekday y d) (weekFixed y d) = none) := by
  have hlen : (byDayIndexList y).length = daysInYear y := by
    unfold byDayIndexList
    rw [List.dropLast_concat, List.length_map, List.length_range']
  refine ⟨hlen, ?_, ?_, ?_⟩
  · intro hleap
    rw [hlen]
    unfold daysInYear
    rw [hleap]
    rfl
  · intro hleap
    rw [hlen]
    unfold daysInYear
    rw [hleap]
    rfl
  · intro data d h1 h2 habs
    unfold yearplotGrid cellValue
    have hex : (List.range' 1 (daysInYear y)).find?
        (fun e => decide (pyWeekday y e = pyWeekday y d ∧
          weekFixed y e = weekFixed y d)) ≠ none := by
      intro hnone
      have hd := List.find?_eq_none.1 hnone d (by rw [List.mem_range'_1]; omega)
      simp at hd
    cases hfind : (List.range' 1 (daysInYear y)).find?
        (fun e => decide (pyWeekday y e = pyWeekday y d ∧
          weekFixed y e = weekFixed y d)) with
    | none => exact absurd hfind hex
    | some e =>
      have hpe := List.find?_some hfind
      have hmm := List.mem_of_find?_eq_some hfind
      rw [List.mem_range'_1] at hmm
      simp only [decide_eq_true_eq] at hpe
      have he : e = d :=
        weekFixed_inj y e d hy (by omega) (by omega) h1 h2 hpe.1 hpe.2
      subst he
      show reindexed (filterYear (yearplotByDay none data) y) y e = none
      have hbd : yearplotByDay none data = data := rfl
      rw [hbd]
      unfold reindexed
      have hnone : (filterYear data y).find?
          (fun p => decide (p.1 = Ts.mk y e 0)) = none := by
        apply List.find?_eq_none.2
        intro p hp hdec
        have hpd : p.1 = Ts.mk y e 0 := of_decide_eq_true hdec
        have hpmem : p ∈ data := List.mem_of_mem_filter hp
        apply habs
        rw [← hpd]
        exact List.mem_map_of_mem _ hpmem
      rw [hnone]
      rfl

theorem claim_C8_witness :
    (1 ≤ 2021 ∧ Ts.mk 2021 1 0 ∉ seriesKeys [(Ts.mk 2021 32 0, 7)]) ∧
    yearplotGrid none [(Ts.mk 2021 32 0, 7)] 2021
      (pyWeekday 2021 1) (weekFixed 2021 1) = none :=
  ⟨⟨by omega, by decide⟩,
   (claim_C8 2021 (by omega)).2.2.2 [(Ts.mk 2021 32 0, 7)] 1 (by omega) (by decide)
     (by decide)⟩

/-- C9: resampling once in calendarplot and then rendering each year with
how=None produces, for every year, the same grid as calling yearplot
directly with the aggregation method on the raw series. -/
theorem claim_C9 :
    ∀ (how : Option (List Int → Int)) (data : Series) (y : Nat),
      calendarplotYearGrid how data y = yearplotGrid how data y ∧
      calendarplotByDay how data = yearplotByDay how data := by
  intro how data y
  cases how with
  | none => exact ⟨rfl, rfl⟩
  | some agg => exact ⟨rfl, rfl⟩

/-- C10: with year=None, yearplot picks the year of the smallest index
timestamp — the earliest year present — and renders exactly the grid it
would render were that year passed explicitly. -/
theorem claim_C10 (how : Option (List Int → Int)) (data : Series) (h : data ≠ []) :
    yearplotEntry none how data = yearplotEntry (some (autoYear data)) how data ∧
    (∀ t ∈ seriesKeys data, autoYear data ≤ t.year) ∧
    autoYear data ∈ (seriesKeys data).map Ts.year := by
  refine ⟨rfl, ?_, ?_⟩
  · intro t ht
    have hmin := sortTs_head_min (seriesKeys data) (Ts.mk 0 0 0) t ht
    simp only [tsLtb, decide_eq_false_iff_not] at hmin
    unfold autoYear sortedIndex
    omega
  · have hkeys : seriesKeys data ≠ [] := by
      cases data with
      | nil => exact absurd rfl h
      | cons p l => simp [seriesKeys]
    have hsne : sortTs (seriesKeys data) ≠ [] := by
      intro hnil
      have hl := sortTs_length (seriesKeys data)
      rw [hnil] at hl
      exact hkeys (List.length_eq_zero.1 hl.symm)
    have hmem : (sortTs (seriesKeys data)).headD (Ts.mk 0 0 0) ∈
        sortTs (seriesKeys data) := by
      cases hs : sortTs (seriesKeys data) with
      | nil => exact absurd hs hsne
      | cons a l => simp
    rw [mem_sortTs] at hmem
    exact List.mem_map.2 ⟨_, hmem, rfl⟩

theorem claim_C10_witness :
    yearplotEntry none none [(Ts.mk 2021 40 0, 3), (Ts.mk 2020 100 0, 4)] =
      yearplotEntry (some (autoYear [(Ts.mk 2021 40 0, 3), (Ts.mk 2020 100 0, 4)]))
        none [(Ts.mk 2021 40 0, 3), (Ts.mk 2020 100 0, 4)] ∧
    (∀ t ∈ seriesKeys [(Ts.mk 2021 40 0, 3), (Ts.mk 2020 100 0, 4)],
      autoYear [(Ts.mk 2021 40 0, 3), (Ts.mk 2020 100 0, 4)] ≤ t.year) ∧
    autoYear [(Ts.mk 2021 40 0, 3), (Ts.mk 2020 100 0, 4)] ∈
      (seriesKeys [(Ts.mk 2021 40 0, 3), (Ts.mk 2020 100 0, 4)]).map Ts.year :=
  claim_C10 none [(Ts.mk 2021 40 0, 3), (Ts.mk 2020 100 0, 4)] (by decide)

